import Mathlib

/-!
Verification of the HealthTrans speech-capture core (`useSpeechRecognition`),
the conversation controller (`App.handleTranslation` / `onSpeechResult`) and
the Gemini service layer (`translateMedicalText`, `decodePcmAudio`), shallowly
embedded from the TypeScript source.
-/

namespace HealthTrans

/-- JavaScript `String.prototype.trim`: drop leading and trailing
whitespace. Implemented by structural recursion over the character list so
that it evaluates inside the kernel. -/
def jsTrim (s : String) : String :=
  ⟨List.reverse (List.dropWhile Char.isWhitespace
    (List.reverse (List.dropWhile Char.isWhitespace s.data)))⟩

/-- One recognizer-reported span of speech: `event.results[i][0].transcript`
together with `event.results[i].isFinal`. -/
structure Segment where
  transcript : String
  isFinal : Bool
  deriving DecidableEq, Repr

/-- The accumulation loop of `recognition.onresult` (part_000 lines 55-61):
walk the segments from the batch start, appending final-flagged transcripts
to the first accumulator and the rest to the second, in arrival order. -/
def accumTranscripts (segs : List Segment) : String × String :=
  segs.foldl
    (fun acc seg =>
      if seg.isFinal then (acc.1 ++ seg.transcript, acc.2)
      else (acc.1, acc.2 ++ seg.transcript))
    ("", "")

/-- The `recognition.onresult` handler (part_000 lines 51-68). The batch is
`results` with start index `resultIndex` (the loop runs from `resultIndex` to
the end of `results`, i.e. over `results.drop resultIndex`). Returns the
`onResult` callback invocation this batch produces, if any: JS truthiness of
a string is non-emptiness, so a non-empty final accumulator wins, else a
non-empty interim accumulator, else no callback. -/
def onResultEvent (resultIndex : Nat) (results : List Segment) :
    Option (String × Bool) :=
  let acc := accumTranscripts (results.drop resultIndex)
  if acc.1 ≠ "" then some (jsTrim acc.1, true)
  else if acc.2 ≠ "" then some (jsTrim acc.2, false)
  else none

/-- Spec-side reading of the final accumulator: the transcripts of the
final-flagged segments of the batch, concatenated in arrival order. -/
def finalJoin (segs : List Segment) : String :=
  String.join ((segs.filter fun g => g.isFinal).map fun g => g.transcript)

/-- Spec-side reading of the interim accumulator: the transcripts of the
segments not flagged final, concatenated in arrival order. -/
def interimJoin (segs : List Segment) : String :=
  String.join ((segs.filter fun g => !g.isFinal).map fun g => g.transcript)

/-- The mutable state of one `useSpeechRecognition` session:
`isListening` (React state, mirrors the recognizer's observed run state),
`shouldBeListening` (the `useRef` holding the caller's desired state), and
whether `recognitionRef.current` holds a recognition resource. -/
structure RecState where
  isListening : Bool
  shouldBeListening : Bool
  hasRecognition : Bool
  deriving DecidableEq, Repr

/-- The state before `setupRecognition` runs: `useState(false)`,
`useRef(false)`, `useRef(null)`. -/
def initialRecState : RecState :=
  { isListening := false, shouldBeListening := false, hasRecognition := false }

/-- `setupRecognition` (part_000 lines 14-71): when the host has no
SpeechRecognition capability it invokes `onError` with the unsupported
message and returns without creating a resource; otherwise it builds a
recognition resource and stores it in the ref. -/
def setupRecognition (supported : Bool) (s : RecState) :
    RecState × List String :=
  if supported then ({ s with hasRecognition := true }, [])
  else (s, ["Speech recognition not supported in this browser."])

/-- Observable requests and callbacks a handler or caller action emits:
a `start()` or `stop()` request on the recognition resource, or an
invocation of the `onResult` / `onError` config callbacks. -/
inductive Output where
  | startRequest
  | stopRequest
  | onResult (text : String) (isFinal : Bool)
  | onError (msg : String)
  deriving DecidableEq, Repr

/-- One atomic step of the session: a caller call (`startListening`,
`stopListening`) or a serially-delivered recognizer event (`onstart`,
`onend`, `onerror`, `onresult`). `evEnded` carries whether the restart
`recognition.start()` inside `onend` would throw synchronously. -/
inductive Action where
  | callStart
  | callStop
  | evStarted
  | evEnded (startThrows : Bool)
  | evError (kind : String)
  | evResult (resultIndex : Nat) (results : List Segment)
  deriving DecidableEq, Repr

/-- The session step function, translated handler by handler from
part_000. `startListening` (81-90) sets the desired state and requests
`start()` when a resource exists (a synchronous throw is swallowed by the
try/catch, so it changes nothing observable). `stopListening` (92-97) sets
the desired state off and requests `stop()`. `onstart` (27) records the
observed state. `onend` (29-39) clears the observed state and, when the
desired state is still listening, issues exactly one `start()` request; a
synchronous throw from it is caught and only logged, so the resulting state
and output do not depend on `startThrows`. `onerror` (41-49) surfaces every
error kind through `onError` except the two benign kinds, which are only
logged. `onresult` (51-68) is `onResultEvent`. Every handler is total:
nothing escapes to the event loop. -/
def step (s : RecState) : Action → RecState × List Output
  | .callStart =>
      ({ s with shouldBeListening := true },
        if s.hasRecognition then [.startRequest] else [])
  | .callStop =>
      ({ s with shouldBeListening := false },
        if s.hasRecognition then [.stopRequest] else [])
  | .evStarted => ({ s with isListening := true }, [])
  | .evEnded _ =>
      ({ s with isListening := false },
        if s.shouldBeListening then [.startRequest] else [])
  | .evError kind =>
      (s, if kind = "no-speech" ∨ kind = "audio-capture" then []
          else [.onError kind])
  | .evResult resultIndex results =>
      (s, match onResultEvent resultIndex results with
          | some (t, fin) => [.onResult t fin]
          | none => [])

/-- Run a sequence of caller calls and recognizer events from a state,
collecting all emitted outputs in order. -/
def run (s : RecState) : List Action → RecState × List Output
  | [] => (s, [])
  | a :: as =>
      let p := step s a
      let q := run p.1 as
      (q.1, p.2 ++ q.2)

/-- The shape of a resolved `generateContent` response as inspected by
`translateMedicalText` (geminiService.ts lines 36-39): the SDK text helper
(`typeof r.text === 'function'`), the text property
(`typeof r.text === 'string'`), and the first candidate part
(`r?.candidates?.[0]?.content?.parts?.[0]?.text`); each may be absent. -/
structure GenAIResponse where
  viaMethod : Option String
  viaProp : Option String
  viaCandidates : Option String
  deriving DecidableEq, Repr

/-- `translateMedicalText` (geminiService.ts lines 8-45), with the awaited
service call's outcome made explicit: either the call threw (a transport
fault, `Except.error`) or it resolved to a response. The function is total
and returns a plain `String` — mirroring that the promise always resolves
and never rejects: a fault is caught and mapped to the fixed
connection-error string, and a response without extractable text falls
through the `??` chain to the fixed failure string. -/
def translateMedicalText (outcome : Except Unit GenAIResponse) : String :=
  match outcome with
  | .error _ => "Error: Unable to connect to translation service."
  | .ok r =>
      (((r.viaMethod).orElse fun _ => r.viaProp).orElse
        fun _ => r.viaCandidates).getD "Translation failed."

/-- A speaker tag of the conversation controller. -/
inductive Speaker where
  | provider
  | patient
  deriving DecidableEq, Repr

/-- A transcript entry (types.ts lines 2-10). The creation timestamp and
the generated id are ambient effects (`new Date()`, `crypto.randomUUID()`);
the id is threaded as an explicit parameter and the timestamp is omitted,
as no claim depends on its value. -/
structure TranscriptEntry where
  id : String
  originalText : String
  translatedText : String
  sourceLang : String
  targetLang : String
  speaker : Speaker
  deriving DecidableEq, Repr

/-- The controller state of `App` (part_001): the append-only transcript
log, the live interim-text slot, the surfaced error message, and the
translating flag. -/
structure ControllerState where
  transcripts : List TranscriptEntry
  interimText : String
  error : Option String
  isTranslating : Bool
  deriving DecidableEq, Repr

/-- `handleTranslation` (part_001 lines 83-108) with the awaited
`translateMedicalText` outcome made explicit: `Except.ok` when the promise
resolved with a string, `Except.error` when it rejected. Returns the final
controller state together with the number of translation calls dispatched.
Empty-after-trim text returns before anything happens. Otherwise the
translating flag is set and the error cleared; on resolution a new entry
is appended, on rejection the generic failure message is surfaced and
nothing is appended; the `finally` block always clears the translating
flag and the interim text. -/
def handleTranslation (sourceLang targetLang : String) (speaker : Speaker)
    (text : String) (translated : Except Unit String) (newId : String)
    (s : ControllerState) : ControllerState × Nat :=
  if jsTrim text = "" then (s, 0)
  else
    let s1 := { s with isTranslating := true, error := none }
    let s2 : ControllerState :=
      match translated with
      | .ok t =>
          { s1 with transcripts := s1.transcripts ++
              [{ id := newId, originalText := text, translatedText := t,
                 sourceLang := sourceLang, targetLang := targetLang,
                 speaker := speaker }] }
      | .error _ =>
          { s1 with
              error := some "Medical translation service encountered an issue." }
    ({ s2 with isTranslating := false, interimText := "" }, 1)

/-- `onSpeechResult` (part_001 lines 110-116): a final result goes through
`handleTranslation`; an interim result replaces the live interim slot. -/
def onSpeechResult (sourceLang targetLang : String) (speaker : Speaker)
    (text : String) (isFinal : Bool) (translated : Except Unit String)
    (newId : String) (s : ControllerState) : ControllerState × Nat :=
  if isFinal then
    handleTranslation sourceLang targetLang speaker text translated newId s
  else ({ s with interimText := text }, 0)

/-- The controller composed with the real gateway: the value awaited in
`handleTranslation` is whatever `translateMedicalText` resolves to for the
underlying service outcome; since `translateMedicalText` never rejects,
the awaited outcome is always `Except.ok`. -/
def handleTranslationVia (sourceLang targetLang : String) (speaker : Speaker)
    (text : String) (service : Except Unit GenAIResponse) (newId : String)
    (s : ControllerState) : ControllerState × Nat :=
  handleTranslation sourceLang targetLang speaker text
    (.ok (translateMedicalText service)) newId s

/-- The manual PCM fallback of `decodePcmAudio` (geminiService.ts lines
96-109), sample extraction: `new Int16Array(data)` reads element `i` as the
little-endian signed 16-bit integer assembled from bytes `2*i` and
`2*i+1`. -/
def readInt16LE (bytes : List Nat) (i : Nat) : Int :=
  let u := bytes.getD (2 * i) 0 % 256 + 256 * (bytes.getD (2 * i + 1) 0 % 256)
  if u < 32768 then (u : Int) else (u : Int) - 65536

/-- `dataInt16.length`: the number of 16-bit samples in the byte buffer. -/
def int16Length (bytes : List Nat) : Nat := bytes.length / 2

/-- `Math.floor(dataInt16.length / numChannels)` (line 99). -/
def pcmFrameCount (bytes : List Nat) (numChannels : Nat) : Nat :=
  int16Length bytes / numChannels

/-- `channelData[i] = dataInt16[i * numChannels + channel] / 32768.0`
(line 105). Each sample value `k / 32768` with `|k| ≤ 32768` is exactly
representable as a binary float, so ℚ models the arithmetic faithfully. -/
def pcmSample (bytes : List Nat) (numChannels channel i : Nat) : ℚ :=
  (readInt16LE bytes (i * numChannels + channel) : ℚ) / 32768

/-! ## Helper lemmas -/

theorem stringJoin_cons (a : String) (s : List String) :
    String.join (a :: s) = a ++ String.join s := by
  simp [String.join_eq, String.ext_iff]

theorem accumTranscripts_go (segs : List Segment) : ∀ a b : String,
    List.foldl
      (fun acc seg =>
        if seg.isFinal then (acc.1 ++ seg.transcript, acc.2)
        else (acc.1, acc.2 ++ seg.transcript))
      (a, b) segs
      = (a ++ finalJoin segs, b ++ interimJoin segs) := by
  induction segs with
  | nil =>
      intro a b
      simp [finalJoin, interimJoin, String.join, String.append_empty]
  | cons g gs ih =>
      intro a b
      by_cases hf : g.isFinal <;>
        simp [List.foldl_cons, hf, ih, finalJoin, interimJoin,
          List.filter_cons, stringJoin_cons, String.append_assoc]

/-- The handler's foldl accumulation is exactly the pair of in-order
concatenations of the final-flagged and non-final segments. -/
theorem accumTranscripts_eq (segs : List Segment) :
    accumTranscripts segs = (finalJoin segs, interimJoin segs) := by
  simpa [String.empty_append] using accumTranscripts_go segs "" ""

theorem run_append (xs : List Action) : ∀ (s : RecState) (ys : List Action),
    run s (xs ++ ys)
      = ((run (run s xs).1 ys).1, (run s xs).2 ++ (run (run s xs).1 ys).2) := by
  induction xs with
  | nil => intro s ys; simp [run]
  | cons x xs ih => intro s ys; simp [run, ih, List.append_assoc]

/-- Any action other than a caller `startListening` keeps the desired state
off and emits no `start()` request from a not-listening desired state. -/
theorem step_no_restart (s : RecState) (a : Action)
    (hs : s.shouldBeListening = false) (ha : a ≠ Action.callStart) :
    (step s a).1.shouldBeListening = false
    ∧ Output.startRequest ∉ (step s a).2 := by
  cases a with
  | callStart => exact absurd rfl ha
  | callStop => constructor <;> simp [step, hs]
  | evStarted => constructor <;> simp [step, hs]
  | evEnded b => constructor <;> simp [step, hs]
  | evError k => constructor <;> simp [step, hs]
  | evResult ri rs =>
      refine ⟨by simp [step, hs], ?_⟩
      simp only [step]
      split <;> simp

theorem run_no_restart (as : List Action) : ∀ s : RecState,
    s.shouldBeListening = false → Action.callStart ∉ as →
    Output.startRequest ∉ (run s as).2 := by
  induction as with
  | nil => intro s _ _; simp [run]
  | cons a as ih =>
      intro s hs ha
      have ha1 : a ≠ Action.callStart := by
        intro h; exact ha (h ▸ List.mem_cons_self a as)
      have ha2 : Action.callStart ∉ as := fun h => ha (List.mem_cons_of_mem a h)
      obtain ⟨h1, h2⟩ := step_no_restart s a hs ha1
      simp only [run, List.mem_append]
      rintro (h | h)
      · exact h2 h
      · exact ih _ h1 ha2 h

/-- A trace ending in `stopListening` leaves the desired state off. -/
theorem run_callStop_not_listening (s : RecState) (xs : List Action) :
    (run s (xs ++ [Action.callStop])).1.shouldBeListening = false := by
  simp [run_append, run, step]

/-- Benign recognizer error events emit nothing, however many arrive. -/
theorem run_benign_errors (kinds : List String) : ∀ s : RecState,
    (∀ k ∈ kinds, k = "no-speech" ∨ k = "audio-capture") →
    (run s (kinds.map Action.evError)).2 = [] := by
  induction kinds with
  | nil => intro s _; simp [run]
  | cons k ks ih =>
      intro s h
      have hk := h k (List.mem_cons_self k ks)
      have hks : ∀ k' ∈ ks, k' = "no-speech" ∨ k' = "audio-capture" :=
        fun k' hk' => h k' (List.mem_cons_of_mem k hk')
      simp [run, step, hk, ih _ hks]

/-! ## Claim theorems -/

/-- Claim C1: while the desired state (`shouldBeListening`) is on, the
`onend` handler clears the observed listening state and issues exactly one
restart request — one `recognition.start()` call — before returning, and
this holds whether or not that `start()` call throws synchronously: the
exception is swallowed by the handler's try/catch and no further restart is
attempted in that invocation. -/
theorem onend_restarts_exactly_once (s : RecState) (startThrows : Bool)
    (h : s.shouldBeListening = true) :
    step s (Action.evEnded startThrows)
      = ({ s with isListening := false }, [Output.startRequest]) := by
  simp [step, h]

theorem onend_restarts_exactly_once_witness :
    ({ initialRecState with shouldBeListening := true } : RecState).shouldBeListening = true
    ∧ step { initialRecState with shouldBeListening := true } (Action.evEnded true)
      = ({ isListening := false, shouldBeListening := true,
           hasRecognition := false }, [Output.startRequest]) :=
  ⟨rfl, onend_restarts_exactly_once _ true rfl⟩

/-- Claim C2: after a `stopListening` call has set the desired state to
not-listening, and for as long as no later `startListening` call occurs,
no `ended` event — however many arrive, interleaved with any other
recognizer events or `stopListening` calls — ever produces a restart
request: the auto-restart check reads the desired state at the moment each
`ended` event is handled. (`start()` requests are emitted only by
`startListening` itself, excluded here, so the absence of any
`startRequest` output is exactly the absence of ended-triggered
restarts.) -/
theorem no_restart_after_stop (s : RecState) (pre suf : List Action)
    (h : Action.callStart ∉ suf) :
    Output.startRequest ∉ (run (run s (pre ++ [Action.callStop])).1 suf).2 :=
  run_no_restart suf _ (run_callStop_not_listening s pre) h

theorem no_restart_after_stop_witness :
    Action.callStart ∉ [Action.evEnded false, Action.evEnded true,
      Action.evError "network", Action.evEnded false]
    ∧ Output.startRequest ∉ (run (run initialRecState
        ([Action.callStart, Action.evStarted] ++ [Action.callStop])).1
        [Action.evEnded false, Action.evEnded true,
          Action.evError "network", Action.evEnded false]).2 :=
  ⟨by decide, no_restart_after_stop initialRecState
    [Action.callStart, Action.evStarted]
    [Action.evEnded false, Action.evEnded true,
      Action.evError "network", Action.evEnded false] (by decide)⟩

/-- Claim C3: the `onresult` handler partitions the segments from the
batch's start index to its end into a final and an interim accumulator,
each concatenated in arrival order; if the final accumulator is non-empty
it delivers `onResult(trimmed final, true)` and the batch's interim text is
discarded; otherwise, if the interim accumulator is non-empty, it delivers
`onResult(trimmed interim, false)`; a batch containing both kinds of
segment therefore delivers only the final text, and an empty batch delivers
nothing. -/
theorem onresult_partitions_batch (resultIndex : Nat) (results : List Segment) :
    onResultEvent resultIndex results
      = (if finalJoin (results.drop resultIndex) ≠ "" then
          some (jsTrim (finalJoin (results.drop resultIndex)), true)
        else if interimJoin (results.drop resultIndex) ≠ "" then
          some (jsTrim (interimJoin (results.drop resultIndex)), false)
        else none) := by
  simp [onResultEvent, accumTranscripts_eq]

/-- Claim C4, counterexample: the claim asserts the text of a final
delivery is never empty, even for batches whose final-flagged segments are
all whitespace. A batch with the single final segment `" "` delivers
`onResult("", true)`: the accumulated final transcript `" "` is truthy, so
the branch fires, and trimming yields the empty string. -/
theorem final_delivery_empty_counterexample :
    onResultEvent 0 [{ transcript := " ", isFinal := true }]
      = some ("", true) := by decide

/-- Claim C4, amended: for every batch that causes a final delivery, the
delivered text equals the concatenation of the batch's final-flagged
segments in arrival order with leading and trailing whitespace trimmed, and
that (untrimmed) concatenation is never empty — but the delivered trimmed
text itself is empty when the final-flagged segments consist only of
whitespace. -/
theorem final_delivery_is_trimmed_join (resultIndex : Nat)
    (results : List Segment) (t : String)
    (h : onResultEvent resultIndex results = some (t, true)) :
    t = jsTrim (finalJoin (results.drop resultIndex))
    ∧ finalJoin (results.drop resultIndex) ≠ "" := by
  simp only [onResultEvent, accumTranscripts_eq] at h
  split at h
  · next hfj => exact ⟨(Prod.mk.injEq _ _ _ _ ▸ Option.some.inj h).1.symm, hfj⟩
  · next hfj => split at h <;> simp_all

theorem final_delivery_is_trimmed_join_witness :
    onResultEvent 0 [{ transcript := " fever ", isFinal := true }]
      = some ("fever", true)
    ∧ ("fever" : String)
        = jsTrim (finalJoin (List.drop 0 [{ transcript := " fever ", isFinal := true }]))
    ∧ finalJoin (List.drop 0 [{ transcript := " fever ", isFinal := true }]) ≠ "" :=
  ⟨by decide,
    (final_delivery_is_trimmed_join 0 [{ transcript := " fever ", isFinal := true }]
      "fever" (by decide)).1,
    (final_delivery_is_trimmed_join 0 [{ transcript := " fever ", isFinal := true }]
      "fever" (by decide)).2⟩

/-- Claim C5: the `onerror` handler leaves the session state (desired
state, observed state, resource) unchanged for every error kind; for the
benign kinds `no-speech` and `audio-capture` it never invokes `onError`
(they are only logged), however many such events arrive; for every other
kind — including `not-allowed`, the permission-denied error — it invokes
`onError` exactly once per event with the raw error identifier. -/
theorem onerror_classification (s : RecState) (kind : String) :
    (step s (Action.evError kind)).1 = s
    ∧ ((kind = "no-speech" ∨ kind = "audio-capture") →
        (step s (Action.evError kind)).2 = [])
    ∧ (¬(kind = "no-speech" ∨ kind = "audio-capture") →
        (step s (Action.evError kind)).2 = [Output.onError kind])
    ∧ ∀ kinds : List String,
        (∀ k ∈ kinds, k = "no-speech" ∨ k = "audio-capture") →
        (run s (kinds.map Action.evError)).2 = [] := by
  refine ⟨by simp [step], fun h => by simp [step, h], fun h => ?_,
    fun kinds h => run_benign_errors kinds s h⟩
  simp only [step]
  rw [if_neg h]

theorem onerror_classification_witness :
    (step initialRecState (Action.evError "no-speech")).1 = initialRecState
    ∧ (step initialRecState (Action.evError "no-speech")).2 = []
    ∧ (step initialRecState (Action.evError "not-allowed")).2
        = [Output.onError "not-allowed"]
    ∧ (run initialRecState
        (["no-speech", "no-speech"].map Action.evError)).2 = [] :=
  ⟨(onerror_classification initialRecState "no-speech").1,
    (onerror_classification initialRecState "no-speech").2.1 (Or.inl rfl),
    (onerror_classification initialRecState "not-allowed").2.2.1 (by decide),
    (onerror_classification initialRecState "no-speech").2.2.2
      ["no-speech", "no-speech"] (by decide)⟩

/-- Claim C6: when the host has no speech-recognition capability,
`setupRecognition` invokes `onError` with the capability-unsupported
message and creates no recognition resource; from any state without a
resource, `startListening` and `stopListening` are no-ops on the resource —
they emit no `start()` or `stop()` request (and, being total, throw
nothing) — and no action ever makes a resource appear, so this persists
for every subsequent call. -/
theorem unsupported_setup_inert (s : RecState) (h : s.hasRecognition = false) :
    setupRecognition false initialRecState
      = (initialRecState, ["Speech recognition not supported in this browser."])
    ∧ initialRecState.hasRecognition = false
    ∧ (step s Action.callStart).2 = []
    ∧ (step s Action.callStop).2 = []
    ∧ ∀ a : Action, (step s a).1.hasRecognition = false := by
  refine ⟨rfl, rfl, by simp [step, h], by simp [step, h], fun a => ?_⟩
  cases a <;> simp [step, h]

theorem unsupported_setup_inert_witness :
    initialRecState.hasRecognition = false
    ∧ (step initialRecState Action.callStart).2 = []
    ∧ (step initialRecState Action.callStop).2 = []
    ∧ (step initialRecState Action.callStart).1.hasRecognition = false :=
  ⟨rfl, (unsupported_setup_inert initialRecState rfl).2.2.1,
    (unsupported_setup_inert initialRecState rfl).2.2.2.1,
    (unsupported_setup_inert initialRecState rfl).2.2.2.2 Action.callStart⟩

/-- Claim C7, counterexample: the claim asserts that a transport fault in
the translation call makes the controller surface the generic
translation-failure error and append zero transcript entries. In the code,
`translateMedicalText` catches the fault and resolves with the fixed
connection-error string, so `handleTranslation`'s success path runs: at the
concrete input `"fiebre"` with a faulting service call, exactly one entry
is appended (not zero) — carrying the connection-error string as its
translated text — and no error is surfaced (`error` ends as `none`, not
the generic failure message); the catch branch never fires. -/
theorem transport_fault_appends_entry :
    (handleTranslationVia "es-ES" "en-US" Speaker.patient "fiebre"
        (Except.error ()) "id-1"
        { transcripts := [], interimText := "fie", error := none,
          isTranslating := false }).1.transcripts.length = 1
    ∧ (handleTranslationVia "es-ES" "en-US" Speaker.patient "fiebre"
        (Except.error ()) "id-1"
        { transcripts := [], interimText := "fie", error := none,
          isTranslating := false }).1.error = none := by decide

/-- Claim C7, amended: for every final delivery of non-whitespace text
whose underlying service call suffers a transport fault, the gateway
resolves with the fixed connection-error string instead of rejecting, so
the controller appends exactly one transcript entry whose translated text
is that error string, surfaces no error (the error slot is cleared, not set
to the generic translation-failure message), dispatches exactly one
translation call, and clears the translating flag and the interim text.
The controller's catch branch — surface the generic error, append nothing —
would fire only if the awaited translation rejected, which
`translateMedicalText` never does. -/
theorem transport_fault_appends_error_entry (sourceLang targetLang : String)
    (speaker : Speaker) (text newId : String) (s : ControllerState)
    (h : jsTrim text ≠ "") :
    handleTranslationVia sourceLang targetLang speaker text
        (Except.error ()) newId s
      = ({ s with
            transcripts := s.transcripts ++
              [{ id := newId, originalText := text,
                 translatedText := "Error: Unable to connect to translation service.",
                 sourceLang := sourceLang, targetLang := targetLang,
                 speaker := speaker }],
            error := none, isTranslating := false, interimText := "" }, 1) := by
  simp [handleTranslationVia, handleTranslation, translateMedicalText, h]

theorem transport_fault_appends_error_entry_witness :
    jsTrim "fiebre" ≠ ""
    ∧ handleTranslationVia "es-ES" "en-US" Speaker.patient "fiebre"
        (Except.error ()) "id-1"
        { transcripts := [], interimText := "fie", error := none,
          isTranslating := false }
      = ({ transcripts := [⟨"id-1", "fiebre",
            "Error: Unable to connect to translation service.",
            "es-ES", "en-US", Speaker.patient⟩],
           interimText := "", error := none, isTranslating := false }, 1) :=
  ⟨by decide, transport_fault_appends_error_entry "es-ES" "en-US"
    Speaker.patient "fiebre" "id-1"
    { transcripts := [], interimText := "fie", error := none,
      isTranslating := false } (by decide)⟩

/-- Claim C8: a final result whose text is empty or whitespace-only after
trimming is ignored by the controller: `handleTranslation` returns before
doing anything, so no translation call is dispatched, no transcript entry
is appended, and the translating flag, interim text and error slot are all
left exactly as they were. -/
theorem whitespace_final_ignored (sourceLang targetLang : String)
    (speaker : Speaker) (text : String) (translated : Except Unit String)
    (newId : String) (s : ControllerState) (h : jsTrim text = "") :
    onSpeechResult sourceLang targetLang speaker text true translated newId s
      = (s, 0) := by
  simp [onSpeechResult, handleTranslation, h]

theorem whitespace_final_ignored_witness :
    jsTrim "  " = ""
    ∧ onSpeechResult "en-US" "es-ES" Speaker.provider "  " true
        (Except.ok "x") "id-2"
        { transcripts := [], interimText := "live", error := none,
          isTranslating := false }
      = ({ transcripts := [], interimText := "live", error := none,
           isTranslating := false }, 0) :=
  ⟨by decide, whitespace_final_ignored "en-US" "es-ES" Speaker.provider "  "
    (Except.ok "x") "id-2"
    { transcripts := [], interimText := "live", error := none,
      isTranslating := false } (by decide)⟩

/-- Claim C10: `translateMedicalText` is a total function into `String` —
it always resolves and never rejects or throws; when the service call
fails it resolves to the fixed connection-error string, and when the
service responds without extractable text (no text method, no text
property, no candidate part) it resolves to the fixed failure string. -/
theorem translate_never_rejects (r : GenAIResponse)
    (h1 : r.viaMethod = none) (h2 : r.viaProp = none)
    (h3 : r.viaCandidates = none) :
    (∀ outcome : Except Unit GenAIResponse,
      ∃ t : String, translateMedicalText outcome = t)
    ∧ translateMedicalText (Except.error ())
        = "Error: Unable to connect to translation service."
    ∧ translateMedicalText (Except.ok r) = "Translation failed." := by
  refine ⟨fun outcome => ⟨_, rfl⟩, rfl, ?_⟩
  simp [translateMedicalText, h1, h2, h3, Option.orElse]

theorem translate_never_rejects_witness :
    translateMedicalText (Except.error ())
      = "Error: Unable to connect to translation service."
    ∧ translateMedicalText (Except.ok ⟨none, none, none⟩)
      = "Translation failed." :=
  ⟨(translate_never_rejects ⟨none, none, none⟩ rfl rfl rfl).2.1,
    (translate_never_rejects ⟨none, none, none⟩ rfl rfl rfl).2.2⟩

/-- Every decoded 16-bit sample lies in the signed 16-bit range. -/
theorem readInt16LE_bounds (bytes : List Nat) (i : Nat) :
    -32768 ≤ readInt16LE bytes i ∧ readInt16LE bytes i ≤ 32767 := by
  have h1 : bytes.getD (2 * i) 0 % 256 < 256 :=
    Nat.mod_lt _ (by norm_num)
  have h2 : bytes.getD (2 * i + 1) 0 % 256 < 256 :=
    Nat.mod_lt _ (by norm_num)
  simp only [readInt16LE]
  split <;> constructor <;> omega

/-- Claim C9: in the manual PCM fallback of `decodePcmAudio`, for every
byte buffer, positive channel count, channel, and in-range frame index,
the produced sample equals the corresponding signed 16-bit little-endian
integer divided by 32768, so it lies in `[-1, 1]`; the frame count is the
floor of the 16-bit sample count divided by the channel count; and the
sample index read never reaches past the end of the 16-bit view of the
buffer. -/
theorem pcm_fallback_correct (bytes : List Nat) (nc ch i : Nat)
    (_hnc : 0 < nc) (hch : ch < nc) (hi : i < pcmFrameCount bytes nc) :
    pcmSample bytes nc ch i = (readInt16LE bytes (i * nc + ch) : ℚ) / 32768
    ∧ -1 ≤ pcmSample bytes nc ch i
    ∧ pcmSample bytes nc ch i ≤ 1
    ∧ pcmFrameCount bytes nc = bytes.length / 2 / nc
    ∧ i * nc + ch < int16Length bytes := by
  obtain ⟨hlo, hhi⟩ := readInt16LE_bounds bytes (i * nc + ch)
  refine ⟨rfl, ?_, ?_, rfl, ?_⟩
  · rw [pcmSample, le_div_iff₀ (by norm_num : (0 : ℚ) < 32768)]
    calc (-1 : ℚ) * 32768 = ((-32768 : Int) : ℚ) := by norm_num
    _ ≤ ((readInt16LE bytes (i * nc + ch) : Int) : ℚ) := by exact_mod_cast hlo
  · rw [pcmSample, div_le_one (by norm_num : (0 : ℚ) < 32768)]
    calc ((readInt16LE bytes (i * nc + ch) : Int) : ℚ)
        ≤ ((32767 : Int) : ℚ) := by exact_mod_cast hhi
    _ ≤ 32768 := by norm_num
  · unfold pcmFrameCount at hi
    have h1 : (i + 1) * nc ≤ int16Length bytes / nc * nc :=
      Nat.mul_le_mul_right nc hi
    have h2 : int16Length bytes / nc * nc ≤ int16Length bytes :=
      Nat.div_mul_le_self _ _
    calc i * nc + ch < i * nc + nc := by omega
    _ = (i + 1) * nc := by ring
    _ ≤ int16Length bytes := le_trans h1 h2

theorem pcm_fallback_correct_witness :
    (0 : Nat) < 1 ∧ (0 : Nat) < 1 ∧ 0 < pcmFrameCount [0, 128] 1
    ∧ (pcmSample [0, 128] 1 0 0 = (readInt16LE [0, 128] (0 * 1 + 0) : ℚ) / 32768
      ∧ -1 ≤ pcmSample [0, 128] 1 0 0
      ∧ pcmSample [0, 128] 1 0 0 ≤ 1
      ∧ pcmFrameCount [0, 128] 1 = ([0, 128] : List Nat).length / 2 / 1
      ∧ 0 * 1 + 0 < int16Length [0, 128]) :=
  ⟨by decide, by decide, by decide,
    pcm_fallback_correct [0, 128] 1 0 0 (by decide) (by decide) (by decide)⟩

end HealthTrans
